import Mathlib

/-!
Shallow embedding of the `log` package of inhies/go-utils
(src/log/log.go, package version 1.5), together with the older
version 1.4 of the same file (src/unnamed/part_000) where it differs.

Go's `LogLevel` is an `int`; it is embedded as `Int`.  Go's `float64`
parse input is embedded as `ℚ` (every finite float64 value is a rational,
and the comparisons against 0 and 7 and the conversion to `int` used by
`ParseLevel` are exact on such values).  Channels are embedded as opaque
identifiers; a channel send with timeout is nondeterministic from the
program's point of view, so the dispatch function takes the per-attempt
outcome as an environment oracle and records every delivery attempt and
every writer invocation in an event trace.
-/

/-- Channels are represented by identifiers; the program never inspects a
channel value, it only sends on it. -/
abbrev ChanId := Nat

/-- String values for each of the log levels (`LevelNames` in log.go). -/
def LevelNames : List String :=
  ["EMERG", "ALERT", "CRIT", "ERR", "WARNING", "NOTICE", "INFO", "DEBUG"]

/-- `maxLevel = len(LevelNames) - 1`: the greatest valid LogLevel. -/
def maxLevel : Int := (LevelNames.length : Int) - 1

/-- `NULL` is -1, so that it discards all output. -/
def NULL : Int := -1

def EMERG : Int := 0

def ALERT : Int := 1

def CRIT : Int := 2

def ERR : Int := 3

def WARNING : Int := 4

def NOTICE : Int := 5

def INFO : Int := 6

def DEBUG : Int := 7

/-- The only error value produced by the package:
`InvalidLogLevelError = errors.New("log level invalid or out of bounds")`. -/
inductive LogError where
  | invalidLogLevel
  deriving DecidableEq, Repr

/-- `func (v LogLevel) String() string` of version 1.4
(src/unnamed/part_000): the bounds check guards the wrong branch, so the
out-of-bounds case indexes `LevelNames[v]`.  A Go array access outside
`[0, len)` panics; `none` models that panic. -/
def LogLevel.StringV14 (v : Int) : Option String :=
  if v < 0 ∨ v > maxLevel then
    if 0 ≤ v ∧ v < (LevelNames.length : Int) then some (LevelNames.getD v.toNat "")
    else none
  else some "INVALID"

/-- `func (v LogLevel) String() string` of log.go version 1.5: if `v` is out
of bounds return "INVALID", otherwise look up the name in `LevelNames`. -/
def LogLevel.String (v : Int) : String :=
  if v < 0 ∨ v > maxLevel then "INVALID"
  else LevelNames.getD v.toNat ""

/-- Go's conversion `int(t)` for `t : float64` truncates toward zero. -/
def intOfFloat (q : ℚ) : Int := if 0 ≤ q then ⌊q⌋ else ⌈q⌉

/-- ASCII uppercase of one character. -/
def charUpper (c : Char) : Char :=
  if 'a' ≤ c ∧ c ≤ 'z' then Char.ofNat (c.toNat - 32) else c

/-- `strings.ToUpper`, on the ASCII fragment relevant here: the canonical
level names are pure ASCII, so matching against them only depends on this
fragment. -/
def strUpper (s : String) : String := ⟨s.data.map charUpper⟩

/-- The dynamic `interface{}` argument of `ParseLevel`, split by the shapes
its type switch distinguishes: `string`, `float64`, `int`, and every other
shape (which the switch leaves to the defaults). -/
inductive ParseInput where
  | str (s : String)
  | flt (q : ℚ)
  | int (n : Int)
  | other

/-- `func ParseLevel(input interface{}) (level LogLevel, err error)`:
string input is matched case-insensitively against `LevelNames` (first
match wins); numeric input is bounds-checked against `[0, maxLevel]`,
with the (converted) value returned even when out of bounds; any other
shape falls through with the defaults `n = NULL`, `err = nil`. -/
def ParseLevel (input : ParseInput) : Int × Option LogError :=
  match input with
  | .str t =>
      let tu := strUpper t
      match LevelNames.findIdx? (fun name => name == tu) with
      | some i => ((i : Int), none)
      | none => (NULL, some .invalidLogLevel)
  | .flt t =>
      let err : Option LogError :=
        if t > (maxLevel : ℚ) ∨ t < 0 then some .invalidLogLevel else none
      (intOfFloat t, err)
  | .int t =>
      let err : Option LogError :=
        if t > maxLevel ∨ t < 0 then some .invalidLogLevel else none
      (t, err)
  | .other => (NULL, none)

/-- `type Message struct` of log.go: the value sent on a registered channel.
`time.Time` is embedded as an abstract instant (`Nat`). -/
structure Message where
  Level : Int
  Msg : String
  Timestamp : Nat
  deriving DecidableEq, Repr

/-- `type Logger struct` of log.go version 1.5.  The embedded standard
`log.Logger` is represented by its configuration (the `prefix` string and
the `flag` bitmask handed to `log.New`); its actual byte-sink is an
external collaborator and is observed through the event trace instead.
`Timeout` is a `time.Duration`, i.e. a count of nanoseconds. -/
structure Logger where
  Level : Int
  IncludeLevel : Bool
  Timeout : Int
  MissedMessages : Int
  levelChannels : List ChanId
  allChannels : List ChanId
  outPfx : String
  outFlag : Int
  deriving DecidableEq, Repr

/-- `1 * time.Second` in nanoseconds. -/
def oneSecond : Int := 1000000000

/-- `func New(out io.Writer, prefix string, flag int) *Logger`: level DEBUG,
no level prefix, 1-second timeout, zero missed messages, no channels. -/
def New (pfx : String) (flag : Int) : Logger :=
  ⟨DEBUG, false, oneSecond, 0, [], [], pfx, flag⟩

/-- `func NewLevel(level LogLevel, inc bool, out io.Writer, prefix string,
flag int) (*Logger, error)`: rejects `level > maxLevel` with
`InvalidLogLevelError` (and no Logger); otherwise builds the Logger. -/
def NewLevel (level : Int) (inc : Bool) (pfx : String) (flag : Int) :
    Except LogError Logger :=
  if level > maxLevel then .error .invalidLogLevel
  else .ok ⟨level, inc, oneSecond, 0, [], [], pfx, flag⟩

/-- `func (logger *Logger) Split(c chan Message, sendAll bool)`: append the
channel to `allChannels` when `sendAll`, to `levelChannels` otherwise. -/
def Logger.Split (logger : Logger) (c : ChanId) (sendAll : Bool) : Logger :=
  if sendAll then { logger with allChannels := logger.allChannels ++ [c] }
  else { logger with levelChannels := logger.levelChannels ++ [c] }

/-- Observable steps of a dispatch: a delivery attempt on a channel (with
the message sent and whether the send won the race against the timeout),
and an invocation of the underlying writer via `logger.Output(3, text)`. -/
inductive Event where
  | attempt (c : ChanId) (m : Message) (ok : Bool)
  | write (text : String)
  deriving DecidableEq, Repr

/-- One `for _, c := range chans { select { case c <- Message{...}:
case <-time.After(logger.Timeout): logger.MissedMessages++ } }` loop.
`ok i` is the environment's verdict for the i-th delivery attempt of the
dispatch (true: the channel accepted the message before the timeout);
`clock i` is what `time.Now()` reads at that attempt.  Returns the updated
missed-message count, the next attempt index, and the events. -/
def sendToChans (level : Int) (msg : String) (ok : Nat → Bool)
    (clock : Nat → Nat) : List ChanId → Nat → Int → Int × Nat × List Event
  | [], idx, missed => (missed, idx, [])
  | c :: rest, idx, missed =>
      let succ := ok idx
      let missed' := if succ then missed else missed + 1
      let r := sendToChans level msg ok clock rest (idx + 1) missed'
      (r.1, r.2.1, Event.attempt c ⟨level, msg, clock idx⟩ succ :: r.2.2)

/-- `func (logger *Logger) prefixOutput(level LogLevel, msg string)` of
log.go version 1.5: send to every `allChannels` entry; return if
`level > logger.Level`; send to every `levelChannels` entry; then call
`logger.Output(3, ...)` with the level name prepended when `IncludeLevel`
is set.  Returns the updated Logger and the event trace. -/
def Logger.prefixOutput (logger : Logger) (level : Int) (msg : String)
    (ok : Nat → Bool) (clock : Nat → Nat) : Logger × List Event :=
  let r1 := sendToChans level msg ok clock logger.allChannels 0 logger.MissedMessages
  if level > logger.Level then
    ({ logger with MissedMessages := r1.1 }, r1.2.2)
  else
    let r2 := sendToChans level msg ok clock logger.levelChannels r1.2.1 r1.1
    let text :=
      if logger.IncludeLevel then LogLevel.String level ++ " " ++ msg else msg
    ({ logger with MissedMessages := r2.1 }, r1.2.2 ++ r2.2.2 ++ [Event.write text])

/-- The channel of an event, when it is a delivery attempt. -/
def Event.chanOf : Event → Option ChanId
  | .attempt c _ _ => some c
  | .write _ => none

/-- The channels offered a message by a trace, in order of attempt. -/
def attemptedChans (evs : List Event) : List ChanId :=
  evs.filterMap Event.chanOf

/-- The texts handed to the underlying writer by a trace, in order. -/
def writes (evs : List Event) : List String :=
  evs.filterMap fun e =>
    match e with
    | .write t => some t
    | .attempt _ _ _ => none

/-- Whether an event is a delivery attempt that timed out. -/
def Event.isMiss : Event → Bool
  | .attempt _ _ ok => !ok
  | .write _ => false

/-- The number of timed-out delivery attempts in a trace. -/
def failedCount (evs : List Event) : Nat :=
  (evs.filter Event.isMiss).length

/-- The state-mutating operations of a Logger after construction:
consumer registration and message dispatch. -/
inductive Op where
  | split (c : ChanId) (sendAll : Bool)
  | dispatch (level : Int) (msg : String) (ok : Nat → Bool) (clock : Nat → Nat)

/-- Run one operation against a Logger. -/
def applyOp (l : Logger) : Op → Logger
  | .split c b => Logger.Split l c b
  | .dispatch level msg ok clock => (Logger.prefixOutput l level msg ok clock).1

theorem maxLevel_eq : maxLevel = 7 := by decide

theorem attemptedChans_append (a b : List Event) :
    attemptedChans (a ++ b) = attemptedChans a ++ attemptedChans b := by
  simp [attemptedChans]

theorem writes_append (a b : List Event) :
    writes (a ++ b) = writes a ++ writes b := by
  simp [writes]

theorem failedCount_append (a b : List Event) :
    failedCount (a ++ b) = failedCount a + failedCount b := by
  simp [failedCount]

/-- The send loop offers the message to exactly the channels of its list,
in order. -/
theorem sendToChans_chans (level : Int) (msg : String) (ok : Nat → Bool)
    (clock : Nat → Nat) (chans : List ChanId) : ∀ (idx : Nat) (missed : Int),
    attemptedChans (sendToChans level msg ok clock chans idx missed).2.2 = chans := by
  induction chans with
  | nil => intro idx missed; rfl
  | cons c rest ih =>
      intro idx missed
      simp only [sendToChans, attemptedChans, List.filterMap_cons, Event.chanOf]
      simpa [attemptedChans] using ih (idx + 1) (if ok idx then missed else missed + 1)

/-- The send loop never invokes the writer. -/
theorem sendToChans_writes (level : Int) (msg : String) (ok : Nat → Bool)
    (clock : Nat → Nat) (chans : List ChanId) : ∀ (idx : Nat) (missed : Int),
    writes (sendToChans level msg ok clock chans idx missed).2.2 = [] := by
  induction chans with
  | nil => intro idx missed; rfl
  | cons c rest ih =>
      intro idx missed
      simp only [sendToChans, writes, List.filterMap_cons]
      simpa [writes] using ih (idx + 1) (if ok idx then missed else missed + 1)

/-- The send loop adds one to the missed-message count per timed-out
attempt and nothing per successful attempt. -/
theorem sendToChans_missed (level : Int) (msg : String) (ok : Nat → Bool)
    (clock : Nat → Nat) (chans : List ChanId) : ∀ (idx : Nat) (missed : Int),
    (sendToChans level msg ok clock chans idx missed).1 =
      missed + (failedCount (sendToChans level msg ok clock chans idx missed).2.2 : Int) := by
  induction chans with
  | nil => intro idx missed; simp [sendToChans, failedCount]
  | cons c rest ih =>
      intro idx missed
      simp only [sendToChans]
      rw [ih (idx + 1) (if ok idx then missed else missed + 1)]
      by_cases h : ok idx
      · simp [h, failedCount, Event.isMiss, List.filter_cons]
      · simp [h, failedCount, Event.isMiss]
        omega

/-- `prefixOutput` adds to the missed-message counter exactly the number
of timed-out delivery attempts of its trace. -/
theorem prefixOutput_missed (l : Logger) (level : Int) (msg : String)
    (ok : Nat → Bool) (clock : Nat → Nat) :
    (Logger.prefixOutput l level msg ok clock).1.MissedMessages =
      l.MissedMessages +
        (failedCount (Logger.prefixOutput l level msg ok clock).2 : Int) := by
  unfold Logger.prefixOutput
  by_cases h : level > l.Level
  · simp only [h, if_pos]
    exact sendToChans_missed level msg ok clock l.allChannels 0 l.MissedMessages
  · simp only [h, if_neg, if_false, not_false_iff]
    rw [sendToChans_missed level msg ok clock l.levelChannels,
      sendToChans_missed level msg ok clock l.allChannels,
      failedCount_append, failedCount_append]
    have hw : failedCount [Event.write
        (if l.IncludeLevel then LogLevel.String level ++ " " ++ msg else msg)] = 0 := by
      simp [failedCount, Event.isMiss]
    rw [hw]
    push_cast
    ring

/-- No single operation decreases the missed-message counter. -/
theorem applyOp_missed_le (l : Logger) (op : Op) :
    l.MissedMessages ≤ (applyOp l op).MissedMessages := by
  cases op with
  | split c b => cases b <;> simp [applyOp, Logger.Split]
  | dispatch level msg ok clock =>
      have h := prefixOutput_missed l level msg ok clock
      simp only [applyOp]
      rw [h]
      exact le_add_of_nonneg_right (Int.natCast_nonneg _)

/-- The missed-message counter is monotone across any operation sequence. -/
theorem foldl_missed_le (ops : List Op) : ∀ l0 : Logger,
    l0.MissedMessages ≤ (ops.foldl applyOp l0).MissedMessages := by
  induction ops with
  | nil => intro l0; exact le_refl _
  | cons op rest ih =>
      intro l0
      exact le_trans (applyOp_missed_le l0 op) (ih (applyOp l0 op))

/-- C3: `LogLevel.String` returns the canonical uppercase name (EMERG,
ALERT, CRIT, ERR, WARNING, NOTICE, INFO, DEBUG) for every level in [0,7]
and exactly "INVALID" for every other integer, including NULL = -1. -/
theorem c3_string_display :
    (∀ L : Int, LogLevel.String L =
      if 0 ≤ L ∧ L ≤ 7 then LevelNames.getD L.toNat "" else "INVALID") ∧
    LogLevel.String NULL = "INVALID" ∧
    LogLevel.String 0 = "EMERG" ∧ LogLevel.String 1 = "ALERT" ∧
    LogLevel.String 2 = "CRIT" ∧ LogLevel.String 3 = "ERR" ∧
    LogLevel.String 4 = "WARNING" ∧ LogLevel.String 5 = "NOTICE" ∧
    LogLevel.String 6 = "INFO" ∧ LogLevel.String 7 = "DEBUG" := by
  refine ⟨fun L => ?_, by decide⟩
  unfold LogLevel.String
  rw [maxLevel_eq]
  by_cases h : 0 ≤ L ∧ L ≤ 7
  · rw [if_neg (by omega), if_pos h]
  · rw [if_pos (by omega), if_neg h]

/-- C8: for every level L in [0,7], parsing the displayed name gives a
level displaying identically:
`LogLevel.String (ParseLevel (String L)).1 = LogLevel.String L`. -/
theorem c8_roundtrip (L : Int) (h : 0 ≤ L ∧ L ≤ 7) :
    LogLevel.String (ParseLevel (ParseInput.str (LogLevel.String L))).1 =
      LogLevel.String L := by
  obtain ⟨h0, h7⟩ := h
  interval_cases L <;> decide

theorem c8_roundtrip_witness :
    (0 ≤ (3 : Int) ∧ (3 : Int) ≤ 7) ∧
    LogLevel.String (ParseLevel (ParseInput.str (LogLevel.String 3))).1 =
      LogLevel.String 3 :=
  ⟨by decide, c8_roundtrip 3 (by decide)⟩

/-- C4 counterexample: the float input -1/2 is outside [0,7], and
`ParseLevel` does return the `InvalidLogLevelError`, but the level it
returns is `int(-0.5) = 0`, not the original value -1/2: the conversion
to the integer level type truncates toward zero, so "that same original
out-of-range numeric value" fails for non-integral floats. -/
theorem c4_counterexample :
    ParseLevel (ParseInput.flt (-1/2)) = (0, some LogError.invalidLogLevel) ∧
    ((0 : Int) : ℚ) ≠ (-1/2 : ℚ) := by
  constructor
  · have hm : ((maxLevel : Int) : ℚ) = 7 := by rw [maxLevel_eq]; norm_num
    have hio : intOfFloat (-1/2) = 0 := by
      unfold intOfFloat
      rw [if_neg (by norm_num)]
      norm_num
    simp only [ParseLevel, hm, hio]
    rw [if_pos (by norm_num)]
  · norm_num

/-- C4 (amended): on an out-of-range integer input, `ParseLevel` returns
the `InvalidLogLevelError` together with that same integer as the level;
on an out-of-range float input it returns the error together with the
input truncated toward zero (equal to the original exactly when the input
is integral) — in neither case a forced NULL. -/
theorem c4_amended :
    (∀ n : Int, (n < 0 ∨ 7 < n) →
      ParseLevel (ParseInput.int n) = (n, some LogError.invalidLogLevel)) ∧
    (∀ q : ℚ, (q < 0 ∨ 7 < q) →
      ParseLevel (ParseInput.flt q) = (intOfFloat q, some LogError.invalidLogLevel)) := by
  constructor
  · intro n hn
    simp only [ParseLevel, maxLevel_eq]
    rw [if_pos (by omega)]
  · intro q hq
    have hm : ((maxLevel : Int) : ℚ) = 7 := by rw [maxLevel_eq]; norm_num
    simp only [ParseLevel, hm]
    rw [if_pos (by tauto)]

theorem c4_amended_witness :
    ((8 : Int) < 0 ∨ 7 < (8 : Int)) ∧
    ParseLevel (ParseInput.int 8) = (8, some LogError.invalidLogLevel) :=
  ⟨by decide, c4_amended.1 8 (by decide)⟩

/-- C5 counterexample: on an input of any other shape (neither string nor
numeric), `ParseLevel` falls through the type switch with its defaults and
returns level NULL with a nil error — not the `InvalidLogLevelError` the
claim states. -/
theorem c5_counterexample :
    ParseLevel ParseInput.other = (NULL, none) ∧
    (ParseLevel ParseInput.other).2 ≠ some LogError.invalidLogLevel := by
  decide

/-- C5 (amended): for every input whose shape is neither a string nor a
numeric value, `ParseLevel` returns level NULL together with no error. -/
theorem c5_amended : ParseLevel ParseInput.other = (NULL, none) := rfl

/-- C6: `NewLevel` fails with `InvalidLogLevelError` and produces no
Logger exactly when level > 7 (so levels below NULL are accepted); on
every accepted level it returns a Logger carrying the given level and
prefix-inclusion flag, the default 1-second (10^9 ns) timeout, a zero
missed-message count, empty consumer lists, and the given writer
configuration. -/
theorem c6_newlevel (level : Int) (inc : Bool) (pfx : String) (flag : Int) :
    NewLevel level inc pfx flag =
      if 7 < level then Except.error LogError.invalidLogLevel
      else Except.ok
        { Level := level, IncludeLevel := inc, Timeout := 1000000000,
          MissedMessages := 0, levelChannels := [], allChannels := [],
          outPfx := pfx, outFlag := flag } := by
  unfold NewLevel
  rw [maxLevel_eq]
  rfl

/-- C9: `Split` appends the channel as the last element of `allChannels`
when sendAll is true and of `levelChannels` when it is false, with no
deduplication or validation, and leaves the other list and every other
Logger field unchanged. -/
theorem c9_split (l : Logger) (c : ChanId) (b : Bool) :
    (Logger.Split l c b).allChannels =
      (if b then l.allChannels ++ [c] else l.allChannels) ∧
    (Logger.Split l c b).levelChannels =
      (if b then l.levelChannels else l.levelChannels ++ [c]) ∧
    (Logger.Split l c b).Level = l.Level ∧
    (Logger.Split l c b).IncludeLevel = l.IncludeLevel ∧
    (Logger.Split l c b).Timeout = l.Timeout ∧
    (Logger.Split l c b).MissedMessages = l.MissedMessages ∧
    (Logger.Split l c b).outPfx = l.outPfx ∧
    (Logger.Split l c b).outFlag = l.outFlag := by
  cases b <;> simp [Logger.Split]

/-- C10: in version 1.4 (src/unnamed/part_000) the bounds check of
`LogLevel.String` is inverted: every level inside [0,7] displays as
"INVALID", and every level outside [0,7], NULL = -1 included, reaches the
out-of-bounds array access `LevelNames[v]` and panics (result `none`), so
the operation is not total. -/
theorem c10_v14_string_inverted :
    (∀ L : Int, LogLevel.StringV14 L =
      if 0 ≤ L ∧ L ≤ 7 then some "INVALID" else none) ∧
    LogLevel.StringV14 NULL = none := by
  have hlen : (LevelNames.length : Int) = 8 := by decide
  refine ⟨fun L => ?_, by decide⟩
  unfold LogLevel.StringV14
  rw [maxLevel_eq, hlen]
  by_cases h : 0 ≤ L ∧ L ≤ 7
  · rw [if_neg (by omega), if_pos h]
  · rw [if_pos (by omega), if_neg (by omega), if_neg h]

/-- C2: in every dispatch, the channels offered the message are exactly
the `allChannels` entries (in registration order, regardless of the level
comparison) followed by the `levelChannels` entries exactly when the
message level M is at most the logger's level T — so an "all" consumer is
always offered the message and a "filtered" consumer is offered it if and
only if M ≤ T. -/
theorem c2_fanout (l : Logger) (level : Int) (msg : String)
    (ok : Nat → Bool) (clock : Nat → Nat) :
    attemptedChans (Logger.prefixOutput l level msg ok clock).2 =
      l.allChannels ++ (if level ≤ l.Level then l.levelChannels else []) := by
  simp only [Logger.prefixOutput]
  by_cases h : level > l.Level
  · have hnle : ¬level ≤ l.Level := by omega
    rw [if_pos h, if_neg hnle]
    simp [sendToChans_chans]
  · have hle : level ≤ l.Level := by omega
    rw [if_neg h, if_pos hle]
    simp only [attemptedChans_append, sendToChans_chans]
    simp [attemptedChans, Event.chanOf]

/-- C1: with threshold T in [0,7] and message level M in [0,7], a dispatch
invokes the underlying writer if and only if M ≤ T, and the written text
is the level's canonical name, a single space, and the message when
`IncludeLevel` is set, and the unmodified message otherwise. -/
theorem c1_writer (l : Logger) (level : Int) (msg : String)
    (ok : Nat → Bool) (clock : Nat → Nat)
    (hM : 0 ≤ level ∧ level ≤ 7) (_hT : 0 ≤ l.Level ∧ l.Level ≤ 7) :
    writes (Logger.prefixOutput l level msg ok clock).2 =
      (if level ≤ l.Level then
        [if l.IncludeLevel then LevelNames.getD level.toNat "" ++ " " ++ msg else msg]
      else []) := by
  have hname : LogLevel.String level = LevelNames.getD level.toNat "" := by
    unfold LogLevel.String
    rw [maxLevel_eq, if_neg (by omega)]
  simp only [Logger.prefixOutput]
  by_cases h : level > l.Level
  · have hnle : ¬level ≤ l.Level := by omega
    rw [if_pos h, if_neg hnle]
    exact sendToChans_writes level msg ok clock l.allChannels 0 l.MissedMessages
  · have hle : level ≤ l.Level := by omega
    rw [if_neg h, if_pos hle]
    rw [writes_append, writes_append, sendToChans_writes, sendToChans_writes]
    cases hi : l.IncludeLevel
    · simp [writes, hi]
    · simp [writes, hi, hname]

theorem c1_writer_witness :
    (0 ≤ (2 : Int) ∧ (2 : Int) ≤ 7) ∧ (0 ≤ (3 : Int) ∧ (3 : Int) ≤ 7) ∧
    writes (Logger.prefixOutput
        ⟨3, true, 1000000000, 0, [], [], "", 0⟩ 2 "disk full"
        (fun _ => true) (fun _ => 0)).2 =
      (if (2 : Int) ≤ (3 : Int) then
        [if true then LevelNames.getD (2 : Int).toNat "" ++ " " ++ "disk full"
          else "disk full"]
      else []) :=
  ⟨by decide, by decide,
    c1_writer ⟨3, true, 1000000000, 0, [], [], "", 0⟩ 2 "disk full"
      (fun _ => true) (fun _ => 0) (by decide) (by decide)⟩

/-- C7: a dispatch raises the missed-message counter by exactly the number
of timed-out delivery attempts of its trace (one per timeout, zero per
success), and across any sequence of Split/dispatch operations the counter
never decreases. -/
theorem c7_missed_counter :
    (∀ (l : Logger) (level : Int) (msg : String) (ok : Nat → Bool) (clock : Nat → Nat),
      (Logger.prefixOutput l level msg ok clock).1.MissedMessages =
        l.MissedMessages +
          (failedCount (Logger.prefixOutput l level msg ok clock).2 : Int)) ∧
    (∀ (ops : List Op) (l0 : Logger),
      l0.MissedMessages ≤ (ops.foldl applyOp l0).MissedMessages) :=
  ⟨prefixOutput_missed, foldl_missed_le⟩


